import Mathlib

/-!
Verification development for the Rating Aggregation Service
(Firebase functions `saveReview`, `api`, `getStats` in functions/index.js).

Shallow embedding notes:
  * JS numbers are modelled by `JSNum`: NaN, the two infinities, and finite
    rationals.  Float rounding is not modelled; every claim under study uses
    exact arithmetic.
  * JS values reaching the functions as request fields are modelled by
    `JSVal` (undefined, string, number); this is enough to express every
    validation branch the source takes (`!x`, `typeof x !== "number"`,
    `Number.isNaN(x)`, comparisons).
  * The Firestore collection is an association list from document id to
    document.  `setDoc` models `doc(id).set(payload, {merge: true})`: the
    payload written by `saveReview` contains every field of the document
    model, so the merge amounts to a full overwrite of the document.
  * A stored `rating` field is `Option Rat`: `some q` is a numeric rating,
    `none` is a stored non-numeric rating field (the service itself only
    ever writes numeric ratings).
  * `serverTimestamp()` is modelled by a `now : Nat` parameter.
-/

/-- A JavaScript number: NaN, an infinity (`true` = positive), or a finite
value (modelled as a rational; float rounding is not modelled). -/
inductive JSNum where
  | nan : JSNum
  | inf : Bool → JSNum
  | fin : ℚ → JSNum
deriving DecidableEq, Repr

/-- A JavaScript value as it reaches the request data of the functions. -/
inductive JSVal where
  | undef : JSVal
  | str : String → JSVal
  | num : JSNum → JSVal
deriving DecidableEq, Repr

/-- JS truthiness of a value (`!x` in the source is `!(jsTruthy x)`). -/
def jsTruthy : JSVal → Bool
  | .undef => false
  | .str s => !(s == "")
  | .num .nan => false
  | .num (.inf _) => true
  | .num (.fin q) => !(q == 0)

/-- `typeof v === "number"`. -/
def typeofNumber : JSVal → Bool
  | .num _ => true
  | _ => false

/-- `Number.isNaN(v)`. -/
def isNaNVal : JSVal → Bool
  | .num .nan => true
  | _ => false

/-- JS `<` on numbers (false whenever either side is NaN). -/
def jsNumLt : JSNum → JSNum → Bool
  | .nan, _ => false
  | _, .nan => false
  | .inf a, .inf b => !a && b
  | .inf a, .fin _ => !a
  | .fin _, .inf b => b
  | .fin a, .fin b => decide (a < b)

/-- `v < q` where `q` is a numeric literal of the source (false for
non-number values, which the source rules out before comparing). -/
def jsValLtQ (v : JSVal) (q : ℚ) : Bool :=
  match v with
  | .num j => jsNumLt j (.fin q)
  | _ => false

/-- `v > q`, likewise. -/
def jsValGtQ (v : JSVal) (q : ℚ) : Bool :=
  match v with
  | .num j => jsNumLt (.fin q) j
  | _ => false

/-- JS `==` between two stored numbers, as used by the Firestore equality
filter `where("resourceId", "==", rid)`: NaN equals nothing. -/
def jsNumEq : JSNum → JSNum → Bool
  | .nan, _ => false
  | _, .nan => false
  | .inf a, .inf b => a == b
  | .fin a, .fin b => a == b
  | .inf _, .fin _ => false
  | .fin _, .inf _ => false

/-- `Number.isFinite(v)`. -/
def isFiniteNum : JSNum → Bool
  | .fin _ => true
  | _ => false

/-- Rendering of a JS number inside a template string.  For integers this
matches JS exactly; the decimal rendering of non-integer numbers is
abstracted (no theorem depends on the exact text, only on this being a
function of its argument). -/
def jsNumRepr : JSNum → String
  | .nan => "NaN"
  | .inf b => if b then "Infinity" else "-Infinity"
  | .fin q => if q.den = 1 then toString q.num else toString q.num ++ "/" ++ toString q.den

/-- A review document as written by `saveReview` (field order follows the
payload `{resourceId, userId, rating, updatedAt, createdAt}` of the source).
`rating` is `none` when the stored field is not a number. -/
structure ReviewDoc where
  resourceId : JSNum
  userId : String
  rating : Option ℚ
  updatedAt : Nat
  createdAt : Nat
deriving DecidableEq, Repr

/-- The `reviews` collection: document id paired with document. -/
abbrev Store := List (String × ReviewDoc)

/-- `collection.doc(k).set(d, {merge:true})` where the payload `d` carries
every field of the document model: replaces the document at id `k` when it
exists, otherwise appends a new document. -/
def setDoc (s : Store) (k : String) (d : ReviewDoc) : Store :=
  if s.any (fun p => p.1 == k) then
    s.map (fun p => if p.1 == k then (k, d) else p)
  else
    s ++ [(k, d)]

/-- The deterministic document id: the template string
resourceId _ userId of the source. -/
def docKey (rid : JSNum) (uid : String) : String :=
  jsNumRepr rid ++ "_" ++ uid

/-- `where("resourceId", "==", rid)` applied to one document. -/
def matchesResource (rid : JSNum) (d : ReviewDoc) : Bool :=
  jsNumEq d.resourceId rid

/-- The documents of the store matching a resource id, in store order. -/
def matching (rid : JSNum) (s : Store) : List ReviewDoc :=
  (s.filter (fun p => matchesResource rid p.2)).map (fun p => p.2)

/-- The single pass of the source over a document list accumulating
`(sum, count)`: documents whose rating field is not a number are skipped. -/
def aggregateDocs (docs : List ReviewDoc) : ℚ × Nat :=
  docs.foldl
    (fun acc d =>
      match d.rating with
      | some q => (acc.1 + q, acc.2 + 1)
      | none => acc)
    (0, 0)

/-- `count > 0 ? sum / count : 0` — shared by `saveReview` and `getStats`. -/
def averageOf (sum : ℚ) (count : Nat) : ℚ :=
  if 0 < count then sum / (count : ℚ) else 0

/-- The numeric rating values stored for a resource, in store order. -/
def ratingsOf (rid : JSNum) (s : Store) : List ℚ :=
  (matching rid s).filterMap (fun d => d.rating)

/-- Errors thrown by the callable functions. -/
inductive FnError where
  | unauthenticated : FnError
  | invalidArgument : String → FnError
deriving DecidableEq, Repr

/-- The value returned by `saveReview`. -/
structure SaveResult where
  average : ℚ
  count : Nat
deriving DecidableEq, Repr

/-- The resourceId validation of `saveReview`:
`!resourceId || typeof resourceId !== "number"`. -/
def resourceIdInvalid (v : JSVal) : Bool :=
  !(jsTruthy v) || !(typeofNumber v)

/-- The rating validation of `saveReview`: `rating === undefined ||
typeof rating !== "number" || Number.isNaN(rating) || rating < 1 ||
rating > 5`. -/
def ratingInvalid (v : JSVal) : Bool :=
  v == .undef || !(typeofNumber v) || isNaNVal v || jsValLtQ v 1 || jsValGtQ v 5

/-- The body of `saveReview` after the authentication check.  The final
match arm is dead code: the two validation checks guarantee the shapes
`num rid` and `num (fin q)`. -/
def saveReviewCore (uid : String) (rv rg : JSVal) (now : Nat) (s : Store) :
    Except FnError (SaveResult × Store) :=
  if resourceIdInvalid rv then
    .error (.invalidArgument "resourceId must be a number")
  else if ratingInvalid rg then
    .error (.invalidArgument "rating must be 1..5")
  else
    match rv, rg with
    | .num rid, .num (.fin q) =>
        let k := docKey rid uid
        let d : ReviewDoc :=
          { resourceId := rid, userId := uid, rating := some q
            updatedAt := now, createdAt := now }
        let s2 := setDoc s k d
        let st := aggregateDocs (matching rid s2)
        .ok ({ average := averageOf st.1 st.2, count := st.2 }, s2)
    | _, _ => .error (.invalidArgument "rating must be 1..5")

/-- The `saveReview` callable.  `auth` is the verified uid when present;
`!ctx.auth || !ctx.auth.uid` maps to `none` or the empty string. -/
def saveReview (auth : Option String) (rv rg : JSVal) (now : Nat) (s : Store) :
    Except FnError (SaveResult × Store) :=
  match auth with
  | none => .error .unauthenticated
  | some uid =>
      if uid == "" then .error .unauthenticated
      else saveReviewCore uid rv rg now s

/-- The value returned by `getStats`. -/
inductive StatsResult where
  | resource (resourceId : JSNum) (average : ℚ) (count : Nat) (uniqueUsers : Nat)
  | global (reviewsCount : Nat) (averageRating : ℚ) (uniqueUsers : Nat) (uniqueResources : Nat)
deriving DecidableEq, Repr

/-- Size of the `Set` of truthy userIds seen over a document list. -/
def uniqueUsersIn (docs : List ReviewDoc) : Nat :=
  ((docs.filter (fun d => !(d.userId == ""))).map (fun d => d.userId)).dedup.length

/-- Size of the `Set` of resourceIds seen over a document list (the source
guard `typeof v.resourceId !== "undefined"` always holds in the document
model, where every document carries a resourceId field).  `List.dedup`
uses structural equality, matching the SameValueZero equality of JS Sets. -/
def uniqueResourcesIn (docs : List ReviewDoc) : Nat :=
  (docs.map (fun d => d.resourceId)).dedup.length

/-- The resource-scoped branch of `getStats` (single pass of the source
split into the rating aggregate and the user set; same results). -/
def resourceStatsResult (rid : JSNum) (s : Store) : StatsResult :=
  let docs := matching rid s
  let st := aggregateDocs docs
  .resource rid (averageOf st.1 st.2) st.2 (uniqueUsersIn docs)

/-- The global branch of `getStats`. -/
def globalStats (s : Store) : StatsResult :=
  let docs := s.map (fun p => p.2)
  let st := aggregateDocs docs
  .global st.2 (averageOf st.1 st.2) (uniqueUsersIn docs) (uniqueResourcesIn docs)

/-- The `getStats` callable: authentication first, then the focused query
when `typeof resourceId === "number"`, else global stats. -/
def getStats (auth : Option String) (resourceId : JSVal) (s : Store) :
    Except FnError StatsResult :=
  match auth with
  | none => .error .unauthenticated
  | some uid =>
      if uid == "" then .error .unauthenticated
      else
        match resourceId with
        | .num rid => .ok (resourceStatsResult rid s)
        | _ => .ok (globalStats s)

/-! ### The HTTP `api` function (GET /reviews?resourceId=...) -/

/-- Whitespace characters recognized when `Number` trims a string. -/
def isSpaceChar (c : Char) : Bool :=
  c == ' ' || c == '\t' || c == '\n' || c == '\r'

/-- Trim leading and trailing whitespace from a character list. -/
def trimChars (cs : List Char) : List Char :=
  ((cs.dropWhile isSpaceChar).reverse.dropWhile isSpaceChar).reverse

/-- Value of a list of decimal digit characters. -/
def digitsToNat (cs : List Char) : Nat :=
  cs.foldl (fun n c => n * 10 + (c.toNat - 48)) 0

/-- Split a character list at the first dot, when present. -/
def splitAtDot : List Char → List Char × Option (List Char)
  | [] => ([], none)
  | c :: rest =>
      if c == '.' then ([], some rest)
      else
        let r := splitAtDot rest
        (c :: r.1, r.2)

/-- Parse an unsigned decimal literal (digits with an optional fractional
part).  Exotic numeric literal forms of JS (exponents, hex, separators)
are not modelled; no claim depends on them. -/
def parseUnsigned (cs : List Char) : Option ℚ :=
  let r := splitAtDot cs
  match r.2 with
  | none =>
      if !(r.1 == []) && r.1.all Char.isDigit then some ((digitsToNat r.1 : ℚ))
      else none
  | some f =>
      if (!(r.1 == []) || !(f == [])) && r.1.all Char.isDigit && f.all Char.isDigit then
        some ((digitsToNat r.1 : ℚ) + (digitsToNat f : ℚ) / ((10 : ℚ) ^ f.length))
      else none

/-- `Number(s)` for a string argument: trimmed empty string is 0, the
infinity literals, otherwise an optionally signed decimal literal, and NaN
for everything else. -/
def jsStringToNumber (s : String) : JSNum :=
  let t := trimChars s.data
  if t == [] then .fin 0
  else if t == "Infinity".data || t == "+Infinity".data then .inf true
  else if t == "-Infinity".data then .inf false
  else
    let signed : Bool × List Char :=
      match t with
      | '-' :: rest => (true, rest)
      | '+' :: rest => (false, rest)
      | _ => (false, t)
    match parseUnsigned signed.2 with
    | some q => .fin (if signed.1 then -q else q)
    | none => .nan

/-- `Number(req.query.resourceId)`: an absent parameter is `undefined`,
and `Number(undefined)` is NaN. -/
def jsToNumber : Option String → JSNum
  | none => .nan
  | some s => jsStringToNumber s

/-- An HTTP request as far as the `api` function inspects it. -/
structure HttpReq where
  method : String
  path : String
  resourceIdParam : Option String
deriving DecidableEq, Repr

/-- One element of the `reviews` array of the 200 response.  The source
maps falsy fields through `|| null`: an empty userId and a zero rating
become null (a stored non-numeric truthy rating would be echoed by JS; the
model renders the non-number token as null, and no claim depends on the
echoed junk value). -/
structure ReviewOut where
  id : String
  resourceId : JSNum
  userId : Option String
  rating : Option ℚ
  createdAt : Nat
  updatedAt : Nat
deriving DecidableEq, Repr

/-- Response bodies the `api` function can produce. -/
inductive ApiBody where
  | empty : ApiBody
  | errorMsg (msg : String) : ApiBody
  | reviewList (resourceId : ℚ) (reviews : List ReviewOut) (count : Nat) : ApiBody
deriving DecidableEq, Repr

/-- An HTTP response (status and JSON body; CORS headers not modelled). -/
structure HttpResp where
  status : Nat
  body : ApiBody
deriving DecidableEq, Repr

/-- The per-document shape pushed onto the `reviews` array. -/
def toReviewOut (p : String × ReviewDoc) : ReviewOut :=
  { id := p.1
    resourceId := p.2.resourceId
    userId := if p.2.userId == "" then none else some p.2.userId
    rating :=
      match p.2.rating with
      | some q => if q == 0 then none else some q
      | none => none
    createdAt := p.2.createdAt
    updatedAt := p.2.updatedAt }

/-- The `api` HTTP function.  `dbResult` is the outcome of the Firestore
read: `.error ()` models the query throwing (caught as a 500). -/
def api (req : HttpReq) (dbResult : Except Unit Store) : HttpResp :=
  if req.method == "OPTIONS" then ⟨204, .empty⟩
  else if !(req.method == "GET") then ⟨405, .errorMsg "Method Not Allowed"⟩
  else if !(req.path == "/reviews") then ⟨404, .errorMsg "Not Found"⟩
  else
    match jsToNumber req.resourceIdParam with
    | .fin q =>
        match dbResult with
        | .ok s =>
            let reviews := (s.filter (fun p => matchesResource (.fin q) p.2)).map toReviewOut
            ⟨200, .reviewList q reviews reviews.length⟩
        | .error _ => ⟨500, .errorMsg "Internal Server Error"⟩
    | _ => ⟨400, .errorMsg "resourceId must be a number"⟩

/-! ### Reachability by sequences of submitRating operations -/

/-- One `saveReview` invocation: caller identity, request fields, and the
server timestamp of the call. -/
structure SubmitOp where
  auth : Option String
  resourceId : JSVal
  rating : JSVal
  now : Nat

/-- Effect of one invocation on the store (a failed call writes nothing). -/
def applyOp (s : Store) (op : SubmitOp) : Store :=
  match saveReview op.auth op.resourceId op.rating op.now s with
  | .ok r => r.2
  | .error _ => s

/-- Run a sequence of invocations left to right. -/
def runOps (s : Store) : List SubmitOp → Store
  | [] => s
  | op :: rest => runOps (applyOp s op) rest

/-- A store is reachable when some sequence of `saveReview` invocations
produces it from the empty collection. -/
def Reachable (s : Store) : Prop :=
  ∃ ops : List SubmitOp, runOps [] ops = s

/-- Store well-formedness: document ids are pairwise distinct (Firestore
ids are unique) and every document sits at the deterministic id built from
its own fields. -/
def StoreInv (s : Store) : Prop :=
  (s.map Prod.fst).Nodup ∧ ∀ p ∈ s, p.1 = docKey p.2.resourceId p.2.userId

/-- A resourceId argument the validation of `saveReview` accepts: a JS
number that is neither NaN nor 0 (the two falsy numbers). -/
def ValidResourceIdArg (v : JSVal) : Prop :=
  ∃ rid : JSNum, v = .num rid ∧ rid ≠ .nan ∧ rid ≠ .fin 0

/-- A rating argument the validation of `saveReview` accepts: a finite JS
number in the inclusive range 1..5. -/
def ValidRatingArg (v : JSVal) : Prop :=
  ∃ q : ℚ, v = .num (.fin q) ∧ 1 ≤ q ∧ q ≤ 5

/-! ### General lemmas about the embedding -/

theorem aggregateDocs_go (docs : List ReviewDoc) (a : ℚ) (c : Nat) :
    docs.foldl
        (fun acc d =>
          match d.rating with
          | some q => (acc.1 + q, acc.2 + 1)
          | none => acc)
        (a, c) =
      (a + (docs.filterMap (fun d => d.rating)).sum,
        c + (docs.filterMap (fun d => d.rating)).length) := by
  induction docs generalizing a c with
  | nil => simp
  | cons d rest ih =>
      cases hd : d.rating with
      | none => simp [hd, ih]
      | some q =>
          simp only [List.foldl_cons, hd, List.filterMap_cons, List.sum_cons,
            List.length_cons, ih, Prod.mk.injEq]
          constructor
          · ring
          · omega

/-- The aggregation pass returns the sum and the number of the numeric
rating values, in store order. -/
theorem aggregateDocs_eq (docs : List ReviewDoc) :
    aggregateDocs docs =
      ((docs.filterMap (fun d => d.rating)).sum,
        (docs.filterMap (fun d => d.rating)).length) := by
  unfold aggregateDocs
  simpa using aggregateDocs_go docs 0 0

theorem keys_ne_of_any_false {s : Store} {k : String}
    (hna : s.any (fun p => p.1 == k) = false) : ∀ p ∈ s, p.1 ≠ k := by
  intro p hp he
  have h := List.any_eq_false.1 hna p hp
  simp [he] at h

theorem setDoc_mem {s : Store} {k : String} {d : ReviewDoc} {p : String × ReviewDoc}
    (hp : p ∈ setDoc s k d) : p = (k, d) ∨ p ∈ s := by
  unfold setDoc at hp
  split at hp
  · obtain ⟨q, hq, hqe⟩ := List.mem_map.1 hp
    cases h : q.1 == k with
    | true =>
        rw [if_pos h] at hqe
        exact Or.inl hqe.symm
    | false =>
        rw [if_neg (by simp [h])] at hqe
        exact Or.inr (hqe ▸ hq)
  · rcases List.mem_append.1 hp with h | h
    · exact Or.inr h
    · exact Or.inl (by simpa using h)

theorem setDoc_self_mem (s : Store) (k : String) (d : ReviewDoc) :
    (k, d) ∈ setDoc s k d := by
  unfold setDoc
  split
  · next h =>
      obtain ⟨q, hq, hqk⟩ := List.any_eq_true.1 h
      refine List.mem_map.2 ⟨q, hq, ?_⟩
      rw [if_pos hqk]
  · exact List.mem_append.2 (Or.inr (by simp))

theorem setDoc_mem_key {s : Store} {k : String} {d : ReviewDoc} {p : String × ReviewDoc}
    (hp : p ∈ setDoc s k d) (hk : p.1 = k) : p = (k, d) := by
  unfold setDoc at hp
  split at hp
  · obtain ⟨q, hq, hqe⟩ := List.mem_map.1 hp
    cases h : q.1 == k with
    | true =>
        rw [if_pos h] at hqe
        exact hqe.symm
    | false =>
        rw [if_neg (by simp [h])] at hqe
        subst hqe
        rw [hk] at h
        simp at h
  · next hcond =>
      have hna : s.any (fun p => p.1 == k) = false := by
        cases hb : s.any (fun p => p.1 == k) with
        | true => exact absurd hb hcond
        | false => rfl
      rcases List.mem_append.1 hp with h | h
      · exact absurd hk (keys_ne_of_any_false hna p h)
      · simpa using h

theorem setDoc_keys_nodup {s : Store} (k : String) (d : ReviewDoc)
    (h : (s.map Prod.fst).Nodup) : ((setDoc s k d).map Prod.fst).Nodup := by
  unfold setDoc
  split
  · have heq : (s.map (fun p => if p.1 == k then (k, d) else p)).map Prod.fst
        = s.map Prod.fst := by
      rw [List.map_map]
      apply List.map_congr_left
      intro p _
      cases hpk : p.1 == k with
      | true =>
          simp only [Function.comp_apply]
          rw [if_pos hpk]
          exact (eq_of_beq hpk).symm
      | false =>
          simp only [Function.comp_apply]
          rw [if_neg (by simp [hpk])]
    rw [heq]
    exact h
  · next hcond =>
      have hna : s.any (fun p => p.1 == k) = false := by
        cases hb : s.any (fun p => p.1 == k) with
        | true => exact absurd hb hcond
        | false => rfl
      rw [List.map_append, List.nodup_append]
      refine ⟨h, by simp, ?_⟩
      intro a ha hb
      simp only [List.map_cons, List.map_nil, List.mem_singleton] at hb
      obtain ⟨p, hp, hpk⟩ := List.mem_map.1 ha
      exact keys_ne_of_any_false hna p hp (hpk.trans hb)

theorem StoreInv_setDoc {s : Store} (hinv : StoreInv s) (d : ReviewDoc) :
    StoreInv (setDoc s (docKey d.resourceId d.userId) d) := by
  refine ⟨setDoc_keys_nodup _ _ hinv.1, ?_⟩
  intro p hp
  rcases setDoc_mem hp with h | h
  · subst h; rfl
  · exact hinv.2 p h

/-- The resourceId check of `saveReview` passes exactly on truthy JS
numbers (every number except NaN and 0). -/
theorem resourceIdInvalid_false_iff (v : JSVal) :
    resourceIdInvalid v = false ↔ ValidResourceIdArg v := by
  constructor
  · intro h
    cases v with
    | undef => simp [resourceIdInvalid, jsTruthy, typeofNumber] at h
    | str t => simp [resourceIdInvalid, jsTruthy, typeofNumber] at h
    | num j =>
        cases j with
        | nan => simp [resourceIdInvalid, jsTruthy, typeofNumber] at h
        | inf b => exact ⟨.inf b, rfl, by simp, by simp⟩
        | fin q =>
            refine ⟨.fin q, rfl, by simp, ?_⟩
            simp only [resourceIdInvalid, jsTruthy, typeofNumber, Bool.not_false,
              Bool.or_false, Bool.not_eq_false', Bool.not_eq_true'] at h
            simp only [ne_eq, JSNum.fin.injEq]
            intro he
            rw [he] at h
            simp at h
  · rintro ⟨rid, rfl, hnan, hzero⟩
    cases rid with
    | nan => exact absurd rfl hnan
    | inf b => simp [resourceIdInvalid, jsTruthy, typeofNumber]
    | fin q =>
        have : ¬ q = 0 := by
          intro he
          exact hzero (by rw [he])
        simp [resourceIdInvalid, jsTruthy, typeofNumber, this]

/-- The rating check of `saveReview` passes exactly on finite JS numbers
in the inclusive range 1..5. -/
theorem ratingInvalid_false_iff (v : JSVal) :
    ratingInvalid v = false ↔ ValidRatingArg v := by
  constructor
  · intro h
    cases v with
    | undef => simp [ratingInvalid] at h
    | str t => simp [ratingInvalid, typeofNumber] at h
    | num j =>
        cases j with
        | nan => simp [ratingInvalid, typeofNumber, isNaNVal] at h
        | inf b =>
            cases b with
            | true => simp [ratingInvalid, typeofNumber, isNaNVal, jsValLtQ, jsValGtQ, jsNumLt] at h
            | false => simp [ratingInvalid, typeofNumber, isNaNVal, jsValLtQ, jsValGtQ, jsNumLt] at h
        | fin q =>
            simp only [ratingInvalid, typeofNumber, isNaNVal, jsValLtQ, jsValGtQ, jsNumLt,
              Bool.or_eq_false_iff, decide_eq_false_iff_not, not_lt] at h
            exact ⟨q, rfl, h.1.2, h.2⟩
  · rintro ⟨q, rfl, h1, h5⟩
    simp only [ratingInvalid, typeofNumber, isNaNVal, jsValLtQ, jsValGtQ, jsNumLt,
      Bool.or_eq_false_iff, decide_eq_false_iff_not, not_lt]
    refine ⟨⟨⟨⟨by simp, by simp⟩, by simp⟩, h1⟩, h5⟩

/-- A successful `saveReview` call reveals its inputs were a valid uid,
resourceId and rating, and the new store is the single-document upsert at
the deterministic id. -/
theorem saveReview_ok_shape {auth : Option String} {rv rg : JSVal} {now : Nat}
    {s : Store} {res : SaveResult} {s2 : Store}
    (h : saveReview auth rv rg now s = .ok (res, s2)) :
    ∃ uid rid q, auth = some uid ∧ ¬(uid = "") ∧
      rv = .num rid ∧ rid ≠ .nan ∧ rid ≠ .fin 0 ∧
      rg = .num (.fin q) ∧ 1 ≤ q ∧ q ≤ 5 ∧
      s2 = setDoc s (docKey rid uid)
        { resourceId := rid, userId := uid, rating := some q
          updatedAt := now, createdAt := now } ∧
      res = { average := averageOf (aggregateDocs (matching rid s2)).1
                (aggregateDocs (matching rid s2)).2
              count := (aggregateDocs (matching rid s2)).2 } := by
  cases auth with
  | none => simp [saveReview] at h
  | some uid =>
      simp only [saveReview] at h
      by_cases hu : uid == ""
      · rw [if_pos hu] at h
        exact absurd h (by simp)
      · rw [if_neg hu] at h
        unfold saveReviewCore at h
        by_cases hrv : resourceIdInvalid rv = true
        · rw [if_pos hrv] at h
          exact absurd h (by simp)
        · rw [if_neg hrv] at h
          by_cases hrg : ratingInvalid rg = true
          · rw [if_pos hrg] at h
            exact absurd h (by simp)
          · rw [if_neg hrg] at h
            have hv := (resourceIdInvalid_false_iff rv).1 (by
              cases hb : resourceIdInvalid rv with
              | true => exact absurd hb hrv
              | false => rfl)
            have hg := (ratingInvalid_false_iff rg).1 (by
              cases hb : ratingInvalid rg with
              | true => exact absurd hb hrg
              | false => rfl)
            obtain ⟨rid, rfl, hnan, hzero⟩ := hv
            obtain ⟨q, rfl, h1, h5⟩ := hg
            have h3 := Except.ok.inj h
            injection h3 with hres hs2
            refine ⟨uid, rid, q, rfl, by simpa using hu, rfl, hnan, hzero, rfl, h1, h5,
              hs2.symm, ?_⟩
            rw [← hs2]
            exact hres.symm

/-- On valid inputs `saveReview` succeeds with the upserted store and the
recomputed aggregate. -/
theorem saveReview_valid_ok (uid : String) (hu : ¬(uid = "")) (rid : JSNum)
    (hnan : rid ≠ .nan) (hzero : rid ≠ .fin 0) (q : ℚ) (h1 : 1 ≤ q) (h5 : q ≤ 5)
    (now : Nat) (s : Store) :
    saveReview (some uid) (.num rid) (.num (.fin q)) now s =
      .ok
        ({ average :=
            averageOf
              (aggregateDocs (matching rid (setDoc s (docKey rid uid)
                { resourceId := rid, userId := uid, rating := some q
                  updatedAt := now, createdAt := now }))).1
              (aggregateDocs (matching rid (setDoc s (docKey rid uid)
                { resourceId := rid, userId := uid, rating := some q
                  updatedAt := now, createdAt := now }))).2
           count :=
            (aggregateDocs (matching rid (setDoc s (docKey rid uid)
              { resourceId := rid, userId := uid, rating := some q
                updatedAt := now, createdAt := now }))).2 },
         setDoc s (docKey rid uid)
           { resourceId := rid, userId := uid, rating := some q
             updatedAt := now, createdAt := now }) := by
  have hv : resourceIdInvalid (.num rid) = false :=
    (resourceIdInvalid_false_iff _).2 ⟨rid, rfl, hnan, hzero⟩
  have hg : ratingInvalid (.num (.fin q)) = false :=
    (ratingInvalid_false_iff _).2 ⟨q, rfl, h1, h5⟩
  simp only [saveReview]
  rw [if_neg (by simpa using hu)]
  unfold saveReviewCore
  rw [if_neg (by simp [hv]), if_neg (by simp [hg])]

/-- One step of `applyOp` preserves the store invariant. -/
theorem StoreInv_applyOp {s : Store} (hinv : StoreInv s) (op : SubmitOp) :
    StoreInv (applyOp s op) := by
  unfold applyOp
  cases heq : saveReview op.auth op.resourceId op.rating op.now s with
  | error e => exact hinv
  | ok r =>
      obtain ⟨res2, s22⟩ := r
      obtain ⟨uid, rid, q, _, _, _, _, _, _, _, _, hs2, _⟩ := saveReview_ok_shape heq
      simpa [hs2] using StoreInv_setDoc hinv
        { resourceId := rid, userId := uid, rating := some q
          updatedAt := op.now, createdAt := op.now }

/-- Running any operation sequence preserves the store invariant. -/
theorem StoreInv_runOps (ops : List SubmitOp) {s : Store} (hinv : StoreInv s) :
    StoreInv (runOps s ops) := by
  induction ops generalizing s with
  | nil => exact hinv
  | cons op rest ih => exact ih (StoreInv_applyOp hinv op)

/-- Every reachable store satisfies the invariant. -/
theorem Reachable.storeInv {s : Store} (h : Reachable s) : StoreInv s := by
  obtain ⟨ops, rfl⟩ := h
  exact StoreInv_runOps ops ⟨List.nodup_nil, by simp⟩

theorem jsNumEq_refl {j : JSNum} (h : j ≠ .nan) : jsNumEq j j = true := by
  cases j with
  | nan => exact absurd rfl h
  | inf b => simp [jsNumEq]
  | fin q => simp [jsNumEq]

/-- The aggregation over the matching documents equals sum and length of
the numeric ratings for the resource. -/
theorem aggregateDocs_matching (rid : JSNum) (s : Store) :
    aggregateDocs (matching rid s) =
      ((ratingsOf rid s).sum, (ratingsOf rid s).length) := by
  rw [aggregateDocs_eq]
  rfl

theorem saveReview_invalid_resource (uid : String) (hu : ¬(uid = "")) {rv : JSVal}
    (hv : resourceIdInvalid rv = true) (rg : JSVal) (now : Nat) (s : Store) :
    saveReview (some uid) rv rg now s =
      .error (.invalidArgument "resourceId must be a number") := by
  simp only [saveReview]
  rw [if_neg (by simpa using hu)]
  unfold saveReviewCore
  rw [if_pos hv]

theorem saveReview_invalid_rating (uid : String) (hu : ¬(uid = "")) {rv : JSVal}
    (hv : resourceIdInvalid rv = false) {rg : JSVal} (hg : ratingInvalid rg = true)
    (now : Nat) (s : Store) :
    saveReview (some uid) rv rg now s =
      .error (.invalidArgument "rating must be 1..5") := by
  simp only [saveReview]
  rw [if_neg (by simpa using hu)]
  unfold saveReviewCore
  rw [if_neg (by simp [hv]), if_pos hg]

theorem applyOp_error {s : Store} {op : SubmitOp} {e : FnError}
    (h : saveReview op.auth op.resourceId op.rating op.now s = .error e) :
    applyOp s op = s := by
  unfold applyOp
  rw [h]

/-- In a store with pairwise-distinct ids, at most one entry satisfies a
predicate that forces the id to a fixed value. -/
theorem countP_le_one_keyed {s : Store} {k : String} {pred : String × ReviewDoc → Bool}
    (hnd : (s.map Prod.fst).Nodup) (hpred : ∀ p ∈ s, pred p = true → p.1 = k) :
    s.countP pred ≤ 1 := by
  induction s with
  | nil => simp
  | cons a t ih =>
      rw [List.countP_cons]
      rw [List.map_cons, List.nodup_cons] at hnd
      by_cases ha : pred a = true
      · have hak := hpred a (by simp) ha
        have hzero : t.countP pred = 0 := by
          rw [List.countP_eq_zero]
          intro p hp hpp
          have hpk := hpred p (by simp [hp]) hpp
          have hmem : a.1 ∈ t.map Prod.fst := by
            rw [hak, ← hpk]
            exact List.mem_map_of_mem Prod.fst hp
          exact absurd hmem hnd.1
        simp [ha, hzero]
      · have hb : pred a = false := by
          cases hx : pred a with
          | true => exact absurd hx ha
          | false => rfl
        rw [hb]
        simpa using ih hnd.2 (fun p hp hpp => hpred p (by simp [hp]) hpp)

theorem applyOp_error_mk {s : Store} {a : Option String} {rv rg : JSVal} {n : Nat}
    {e : FnError} (h : saveReview a rv rg n s = .error e) :
    applyOp s ⟨a, rv, rg, n⟩ = s := by
  show (match saveReview a rv rg n s with
        | .ok r => r.2
        | .error _ => s) = s
  rw [h]

/-! ### Claim theorems -/

/-- C2 (amended): `getStats` fails with `Unauthenticated` exactly when no
verified caller identity is present, regardless of whether `resourceId` is
supplied; an authenticated call with a non-number (or omitted) `resourceId`
returns the global statistics. -/
theorem getStats_auth_iff (auth : Option String) (resourceId : JSVal) (s : Store) :
    (getStats auth resourceId s = .error .unauthenticated ↔
      (auth = none ∨ auth = some "")) ∧
    ((∃ uid, auth = some uid ∧ ¬(uid = "")) → (∀ rid : JSNum, resourceId ≠ .num rid) →
      getStats auth resourceId s = .ok (globalStats s)) := by
  constructor
  · constructor
    · intro h
      cases auth with
      | none => exact Or.inl rfl
      | some uid =>
          simp only [getStats] at h
          by_cases hu : (uid == "") = true
          · exact Or.inr (by rw [show uid = "" by simpa using hu])
          · rw [if_neg hu] at h
            cases resourceId <;> simp at h
    · intro h
      rcases h with rfl | rfl
      · rfl
      · simp [getStats]
  · rintro ⟨uid, rfl, hu⟩ hr
    simp only [getStats]
    rw [if_neg (by simpa using hu)]

/-- C2 (counterexample to the claim as stated): the global-scope call
without authentication does not succeed; it fails with `Unauthenticated`,
because the source checks authentication before reading `resourceId`. -/
theorem getStats_global_unauthenticated_cex :
    getStats none .undef [] = .error .unauthenticated ∧
      (getStats none .undef []).isOk = false :=
  ⟨rfl, rfl⟩

theorem getStats_auth_iff_witness :
    getStats (some "u") (.str "x") [] = .ok (globalStats []) :=
  (getStats_auth_iff (some "u") (.str "x") []).2 ⟨"u", rfl, by decide⟩
    (fun rid h => JSVal.noConfusion h)

/-- C4 (confirmed): in every reachable store each document sits at the
composite id built from its own `resourceId` and `userId`, and at most one
document exists for any (resourceId, userId) pair. -/
theorem at_most_one_rating_per_pair (s : Store) (h : Reachable s) :
    (∀ p ∈ s, p.1 = docKey p.2.resourceId p.2.userId) ∧
    ∀ (rid : JSNum) (uid : String),
      s.countP (fun p => p.2.resourceId == rid && p.2.userId == uid) ≤ 1 := by
  have hinv := h.storeInv
  refine ⟨hinv.2, ?_⟩
  intro rid uid
  refine countP_le_one_keyed (k := docKey rid uid) hinv.1 ?_
  intro p hp hpp
  simp only [Bool.and_eq_true, beq_iff_eq] at hpp
  rw [hinv.2 p hp, hpp.1, hpp.2]

theorem at_most_one_rating_per_pair_witness :
    (runOps [] [⟨some "u1", .num (.fin 42), .num (.fin 5), 0⟩,
                ⟨some "u1", .num (.fin 42), .num (.fin 3), 1⟩]).countP
      (fun p => p.2.resourceId == JSNum.fin 42 && p.2.userId == "u1") ≤ 1 :=
  (at_most_one_rating_per_pair _ ⟨_, rfl⟩).2 (.fin 42) "u1"

/-- C3 (amended): for an authenticated caller, `saveReview` fails with
`InvalidArgument` exactly when the resourceId is not a truthy JS number
(so 0 and NaN are rejected while the infinities are accepted) or the
rating is not a finite number in 1..5; on valid arguments it succeeds. -/
theorem saveReview_validation_iff (uid : String) (hu : ¬(uid = "")) (rv rg : JSVal)
    (now : Nat) (s : Store) :
    ((∃ msg, saveReview (some uid) rv rg now s = .error (.invalidArgument msg)) ↔
      (¬ ValidResourceIdArg rv ∨ ¬ ValidRatingArg rg)) ∧
    (ValidResourceIdArg rv → ValidRatingArg rg →
      (saveReview (some uid) rv rg now s).isOk = true) := by
  by_cases hv : resourceIdInvalid rv = true
  · have hnv : ¬ ValidResourceIdArg rv := by
      intro hval
      rw [(resourceIdInvalid_false_iff rv).2 hval] at hv
      exact absurd hv (by simp)
    exact ⟨⟨fun _ => Or.inl hnv,
      fun _ => ⟨_, saveReview_invalid_resource uid hu hv rg now s⟩⟩,
      fun hval _ => absurd hval hnv⟩
  · have hvf : resourceIdInvalid rv = false := by
      cases hb : resourceIdInvalid rv with
      | true => exact absurd hb hv
      | false => rfl
    have hval : ValidResourceIdArg rv := (resourceIdInvalid_false_iff rv).1 hvf
    by_cases hg : ratingInvalid rg = true
    · have hng : ¬ ValidRatingArg rg := by
        intro hgood
        rw [(ratingInvalid_false_iff rg).2 hgood] at hg
        exact absurd hg (by simp)
      exact ⟨⟨fun _ => Or.inr hng,
        fun _ => ⟨_, saveReview_invalid_rating uid hu hvf hg now s⟩⟩,
        fun _ hgood => absurd hgood hng⟩
    · have hgf : ratingInvalid rg = false := by
        cases hb : ratingInvalid rg with
        | true => exact absurd hb hg
        | false => rfl
      have hgood : ValidRatingArg rg := (ratingInvalid_false_iff rg).1 hgf
      obtain ⟨rid, rfl, hnan, hzero⟩ := hval
      obtain ⟨q, rfl, h1, h5⟩ := hgood
      rw [saveReview_valid_ok uid hu rid hnan hzero q h1 h5 now s]
      refine ⟨⟨?_, ?_⟩, fun _ _ => rfl⟩
      · rintro ⟨msg, habs⟩
        exact absurd habs (by simp)
      · rintro (hl | hr)
        · exact absurd ⟨rid, rfl, hnan, hzero⟩ hl
        · exact absurd ⟨q, rfl, h1, h5⟩ hr

/-- C3 (counterexample to the claim as stated): `resourceId = 0` is finite
yet rejected (0 is falsy), and `resourceId = Infinity` is not finite yet
accepted (truthy and of type number). -/
theorem saveReview_zero_infinity_cex :
    saveReview (some "u1") (.num (.fin 0)) (.num (.fin 5)) 0 [] =
      .error (.invalidArgument "resourceId must be a number") ∧
    (saveReview (some "u1") (.num (.inf true)) (.num (.fin 5)) 0 []).isOk = true :=
  ⟨rfl, rfl⟩

theorem saveReview_validation_iff_witness :
    (saveReview (some "u") (.num (.fin 42)) (.num (.fin 5)) 0 []).isOk = true :=
  (saveReview_validation_iff "u" (by decide) (.num (.fin 42)) (.num (.fin 5)) 0 []).2
    ⟨.fin 42, rfl, by decide, by decide⟩ ⟨5, rfl, by norm_num, by norm_num⟩

/-- C6 (confirmed): each listed invalid submission fails with
`InvalidArgument` and leaves the store unchanged (the checks run before
the write). -/
theorem submitRating_invalid_no_write (uid : String) (hu : ¬(uid = "")) (s : Store)
    (now : Nat) :
    (saveReview (some uid) (.num (.fin 7)) (.num (.fin 0)) now s =
        .error (.invalidArgument "rating must be 1..5") ∧
      applyOp s ⟨some uid, .num (.fin 7), .num (.fin 0), now⟩ = s) ∧
    (saveReview (some uid) (.num (.fin 7)) (.num (.fin 6)) now s =
        .error (.invalidArgument "rating must be 1..5") ∧
      applyOp s ⟨some uid, .num (.fin 7), .num (.fin 6), now⟩ = s) ∧
    (saveReview (some uid) (.num (.fin 7)) (.str "abc") now s =
        .error (.invalidArgument "rating must be 1..5") ∧
      applyOp s ⟨some uid, .num (.fin 7), .str "abc", now⟩ = s) ∧
    (saveReview (some uid) (.num (.fin 7)) (.num .nan) now s =
        .error (.invalidArgument "rating must be 1..5") ∧
      applyOp s ⟨some uid, .num (.fin 7), .num .nan, now⟩ = s) ∧
    (saveReview (some uid) (.str "abc") (.num (.fin 5)) now s =
        .error (.invalidArgument "resourceId must be a number") ∧
      applyOp s ⟨some uid, .str "abc", .num (.fin 5), now⟩ = s) := by
  have e1 := saveReview_invalid_rating uid hu
    (show resourceIdInvalid (.num (.fin 7)) = false by decide)
    (show ratingInvalid (.num (.fin 0)) = true by decide) now s
  have e2 := saveReview_invalid_rating uid hu
    (show resourceIdInvalid (.num (.fin 7)) = false by decide)
    (show ratingInvalid (.num (.fin 6)) = true by decide) now s
  have e3 := saveReview_invalid_rating uid hu
    (show resourceIdInvalid (.num (.fin 7)) = false by decide)
    (show ratingInvalid (.str "abc") = true by decide) now s
  have e4 := saveReview_invalid_rating uid hu
    (show resourceIdInvalid (.num (.fin 7)) = false by decide)
    (show ratingInvalid (.num .nan) = true by decide) now s
  have e5 := saveReview_invalid_resource uid hu
    (show resourceIdInvalid (.str "abc") = true by decide) (.num (.fin 5)) now s
  exact ⟨⟨e1, applyOp_error_mk e1⟩, ⟨e2, applyOp_error_mk e2⟩, ⟨e3, applyOp_error_mk e3⟩,
    ⟨e4, applyOp_error_mk e4⟩, ⟨e5, applyOp_error_mk e5⟩⟩

theorem submitRating_invalid_no_write_witness :
    saveReview (some "u") (.num (.fin 7)) (.num (.fin 0)) 0 [] =
      .error (.invalidArgument "rating must be 1..5") ∧
    applyOp [] ⟨some "u", .num (.fin 7), .num (.fin 0), 0⟩ = [] :=
  (submitRating_invalid_no_write "u" (by decide) [] 0).1

/-- C8 (confirmed): for a resource with no stored numeric ratings,
`getStats` returns average 0 and count 0, and the shared average guard
returns 0 on an empty count instead of dividing by zero. -/
theorem getStats_empty_resource (uid : String) (hu : ¬(uid = "")) (rid : JSNum)
    (s : Store) (hempty : ratingsOf rid s = []) :
    getStats (some uid) (.num rid) s =
      .ok (.resource rid 0 0 (uniqueUsersIn (matching rid s))) ∧
    (∀ sum : ℚ, averageOf sum 0 = 0) := by
  constructor
  · simp only [getStats]
    rw [if_neg (by simpa using hu)]
    have hres : resourceStatsResult rid s =
        .resource rid 0 0 (uniqueUsersIn (matching rid s)) := by
      show StatsResult.resource rid
          (averageOf (aggregateDocs (matching rid s)).1 (aggregateDocs (matching rid s)).2)
          (aggregateDocs (matching rid s)).2 (uniqueUsersIn (matching rid s)) =
        StatsResult.resource rid 0 0 (uniqueUsersIn (matching rid s))
      rw [aggregateDocs_matching, hempty]
      simp [averageOf]
    rw [hres]
  · intro sum
    simp [averageOf]

theorem getStats_empty_resource_witness :
    getStats (some "u") (.num (.fin 9)) [] = .ok (.resource (.fin 9) 0 0 0) :=
  (getStats_empty_resource "u" (by decide) (.fin 9) [] (by decide)).1

/-- Helper for concrete runs: a valid call on a concrete store returns the
precomputed store, ratings list, average and count. -/
theorem saveReview_concrete (uid : String) (hu : ¬(uid = "")) (rid : JSNum)
    (hnan : rid ≠ .nan) (hzero : rid ≠ .fin 0) (q : ℚ) (h1 : 1 ≤ q) (h5 : q ≤ 5)
    (now : Nat) (s s2 : Store) (L : List ℚ) (a : ℚ) (n : Nat)
    (hset : setDoc s (docKey rid uid) ⟨rid, uid, some q, now, now⟩ = s2)
    (hL : ratingsOf rid s2 = L)
    (havg : averageOf L.sum L.length = a)
    (hn : L.length = n) :
    saveReview (some uid) (.num rid) (.num (.fin q)) now s = .ok (⟨a, n⟩, s2) := by
  have h0 := saveReview_valid_ok uid hu rid hnan hzero q h1 h5 now s
  rw [hset, aggregateDocs_matching, hL] at h0
  dsimp only at h0
  rw [havg, hn] at h0
  exact h0

/-- C5 (confirmed): a successful `saveReview` call returns, for the store
it just committed, the number of numeric ratings for the resource and
their arithmetic mean, the count is at least 1, and the just-submitted
value is among the aggregated ratings (read-after-write consistency). -/
theorem submitRating_read_after_write (uid : String) (rid : JSNum) (q : ℚ) (now : Nat)
    (s : Store) (res : SaveResult) (s2 : Store)
    (h : saveReview (some uid) (.num rid) (.num (.fin q)) now s = .ok (res, s2)) :
    res.count = (ratingsOf rid s2).length ∧
    1 ≤ res.count ∧
    q ∈ ratingsOf rid s2 ∧
    res.average = (ratingsOf rid s2).sum / (res.count : ℚ) := by
  obtain ⟨uid2, rid2, q2, ha, hu2, hrv, hnan, hzero, hrg, h1, h5, hs2, hres⟩ :=
    saveReview_ok_shape h
  obtain rfl : uid = uid2 := Option.some.inj ha
  obtain rfl : rid = rid2 := JSVal.num.inj hrv
  obtain rfl : q = q2 := JSNum.fin.inj (JSVal.num.inj hrg)
  have hcount : res.count = (ratingsOf rid s2).length := by
    rw [hres, aggregateDocs_matching]
  have hmem : (docKey rid uid,
      ({ resourceId := rid, userId := uid, rating := some q,
         updatedAt := now, createdAt := now } : ReviewDoc)) ∈ s2 := by
    rw [hs2]
    exact setDoc_self_mem _ _ _
  have hdocmem :
      ({ resourceId := rid, userId := uid, rating := some q,
         updatedAt := now, createdAt := now } : ReviewDoc) ∈ matching rid s2 :=
    List.mem_map.2 ⟨_, List.mem_filter.2
      ⟨hmem, by simp [matchesResource, jsNumEq_refl hnan]⟩, rfl⟩
  have hq : q ∈ ratingsOf rid s2 := List.mem_filterMap.2 ⟨_, hdocmem, rfl⟩
  have hpos : 0 < (ratingsOf rid s2).length :=
    List.length_pos.2 (List.ne_nil_of_mem hq)
  refine ⟨hcount, ?_, hq, ?_⟩
  · rw [hcount]
    exact hpos
  · rw [hcount, hres, aggregateDocs_matching]
    dsimp only
    unfold averageOf
    rw [if_pos (by simpa using hpos)]

theorem submitRating_read_after_write_witness :
    ((⟨5, 1⟩ : SaveResult).count =
        (ratingsOf (.fin 42) [("42_u", ⟨.fin 42, "u", some 5, 0, 0⟩)]).length ∧
      1 ≤ (⟨5, 1⟩ : SaveResult).count ∧
      (5 : ℚ) ∈ ratingsOf (.fin 42) [("42_u", ⟨.fin 42, "u", some 5, 0, 0⟩)] ∧
      (⟨5, 1⟩ : SaveResult).average =
        (ratingsOf (.fin 42) [("42_u", ⟨.fin 42, "u", some 5, 0, 0⟩)]).sum /
          (((⟨5, 1⟩ : SaveResult).count : ℚ))) :=
  submitRating_read_after_write "u" (.fin 42) 5 0 [] ⟨5, 1⟩ _
    (saveReview_concrete "u" (by decide) (.fin 42) (by decide) (by decide) 5
      (by norm_num) (by norm_num) 0 [] [("42_u", ⟨.fin 42, "u", some 5, 0, 0⟩)]
      [5] 5 1 (by decide) (by decide) (by norm_num [averageOf]) (by decide))

/-- C1 (behaviour at the failing input): after submitting value 5 at time
10 and value 3 at time 20 for the same pair, the single remaining document
has createdAt 20 — the first timestamp is NOT preserved, because the
upsert payload includes createdAt under merge. -/
theorem saveReview_overwrites_createdAt :
    runOps [] [⟨some "u1", .num (.fin 42), .num (.fin 5), 10⟩,
               ⟨some "u1", .num (.fin 42), .num (.fin 3), 20⟩] =
      [("42_u1", { resourceId := .fin 42, userId := "u1", rating := some 3
                   updatedAt := 20, createdAt := 20 })] := by
  decide

/-- C7 (confirmed): the concrete scenario of the spec, with the
authenticated global `getStats` call at the end. -/
theorem concrete_scenario :
    saveReview (some "u1") (.num (.fin 42)) (.num (.fin 5)) 1 [] =
      .ok (⟨5, 1⟩, [("42_u1", ⟨.fin 42, "u1", some 5, 1, 1⟩)]) ∧
    saveReview (some "u2") (.num (.fin 42)) (.num (.fin 3)) 2
        [("42_u1", ⟨.fin 42, "u1", some 5, 1, 1⟩)] =
      .ok (⟨4, 2⟩, [("42_u1", ⟨.fin 42, "u1", some 5, 1, 1⟩),
                    ("42_u2", ⟨.fin 42, "u2", some 3, 2, 2⟩)]) ∧
    saveReview (some "u1") (.num (.fin 42)) (.num (.fin 1)) 3
        [("42_u1", ⟨.fin 42, "u1", some 5, 1, 1⟩),
         ("42_u2", ⟨.fin 42, "u2", some 3, 2, 2⟩)] =
      .ok (⟨2, 2⟩, [("42_u1", ⟨.fin 42, "u1", some 1, 3, 3⟩),
                    ("42_u2", ⟨.fin 42, "u2", some 3, 2, 2⟩)]) ∧
    getStats (some "u1") .undef
        [("42_u1", ⟨.fin 42, "u1", some 1, 3, 3⟩),
         ("42_u2", ⟨.fin 42, "u2", some 3, 2, 2⟩)] =
      .ok (.global 2 2 2 1) := by
  refine ⟨?_, ?_, ?_, ?_⟩
  · exact saveReview_concrete "u1" (by decide) (.fin 42) (by decide) (by decide) 5
      (by norm_num) (by norm_num) 1 [] _ [5] 5 1 (by decide) (by decide)
      (by norm_num [averageOf]) (by decide)
  · exact saveReview_concrete "u2" (by decide) (.fin 42) (by decide) (by decide) 3
      (by norm_num) (by norm_num) 2 _ _ [5, 3] 4 2 (by decide) (by decide)
      (by norm_num [averageOf]) (by decide)
  · exact saveReview_concrete "u1" (by decide) (.fin 42) (by decide) (by decide) 1
      (by norm_num) (by norm_num) 3 _ _ [1, 3] 2 2 (by decide) (by decide)
      (by norm_num [averageOf]) (by decide)
  · have hgs : getStats (some "u1") .undef
        [("42_u1", ⟨.fin 42, "u1", some 1, 3, 3⟩),
         ("42_u2", ⟨.fin 42, "u2", some 3, 2, 2⟩)] =
        .ok (globalStats
          [("42_u1", ⟨.fin 42, "u1", some 1, 3, 3⟩),
           ("42_u2", ⟨.fin 42, "u2", some 3, 2, 2⟩)]) := rfl
    rw [hgs]
    have hg : globalStats
        [("42_u1", ⟨.fin 42, "u1", some 1, 3, 3⟩),
         ("42_u2", ⟨.fin 42, "u2", some 3, 2, 2⟩)] = .global 2 2 2 1 := by
      show StatsResult.global
          (aggregateDocs (([("42_u1", ⟨.fin 42, "u1", some 1, 3, 3⟩),
            ("42_u2", ⟨.fin 42, "u2", some 3, 2, 2⟩)] : Store).map (fun p => p.2))).2
          (averageOf
            (aggregateDocs (([("42_u1", ⟨.fin 42, "u1", some 1, 3, 3⟩),
              ("42_u2", ⟨.fin 42, "u2", some 3, 2, 2⟩)] : Store).map (fun p => p.2))).1
            (aggregateDocs (([("42_u1", ⟨.fin 42, "u1", some 1, 3, 3⟩),
              ("42_u2", ⟨.fin 42, "u2", some 3, 2, 2⟩)] : Store).map (fun p => p.2))).2)
          (uniqueUsersIn (([("42_u1", ⟨.fin 42, "u1", some 1, 3, 3⟩),
            ("42_u2", ⟨.fin 42, "u2", some 3, 2, 2⟩)] : Store).map (fun p => p.2)))
          (uniqueResourcesIn (([("42_u1", ⟨.fin 42, "u1", some 1, 3, 3⟩),
            ("42_u2", ⟨.fin 42, "u2", some 3, 2, 2⟩)] : Store).map (fun p => p.2))) =
        StatsResult.global 2 2 2 1
      rw [aggregateDocs_eq]
      have hfm : (([("42_u1", ⟨.fin 42, "u1", some 1, 3, 3⟩),
          ("42_u2", ⟨.fin 42, "u2", some 3, 2, 2⟩)] : Store).map
            (fun p => p.2)).filterMap (fun d => d.rating) = [1, 3] := by decide
      rw [hfm]
      have husers : uniqueUsersIn (([("42_u1", ⟨.fin 42, "u1", some 1, 3, 3⟩),
          ("42_u2", ⟨.fin 42, "u2", some 3, 2, 2⟩)] : Store).map (fun p => p.2)) = 2 := by
        decide
      have hresun : uniqueResourcesIn (([("42_u1", ⟨.fin 42, "u1", some 1, 3, 3⟩),
          ("42_u2", ⟨.fin 42, "u2", some 3, 2, 2⟩)] : Store).map (fun p => p.2)) = 1 := by
        decide
      rw [husers, hresun]
      norm_num [averageOf]
    rw [hg]

/-- C10 (confirmed): the aggregation pass excludes documents whose rating
field is not a number, and on a store holding such a document the counts
of `getStats` and `saveReview` are strictly below the count of the HTTP
read, which counts every document for the resource. -/
theorem nonNumeric_ratings_excluded :
    (∀ docs : List ReviewDoc,
      aggregateDocs docs =
        ((docs.filterMap (fun d => d.rating)).sum,
          (docs.filterMap (fun d => d.rating)).length)) ∧
    getStats (some "a") (.num (.fin 1)) [("1_w", ⟨.fin 1, "w", none, 0, 0⟩)] =
      .ok (.resource (.fin 1) 0 0 1) ∧
    api ⟨"GET", "/reviews", some "1"⟩ (.ok [("1_w", ⟨.fin 1, "w", none, 0, 0⟩)]) =
      ⟨200, .reviewList 1 [⟨"1_w", .fin 1, some "w", none, 0, 0⟩] 1⟩ ∧
    saveReview (some "u") (.num (.fin 1)) (.num (.fin 5)) 3
        [("1_w", ⟨.fin 1, "w", none, 0, 0⟩)] =
      .ok (⟨5, 1⟩, [("1_w", ⟨.fin 1, "w", none, 0, 0⟩),
                    ("1_u", ⟨.fin 1, "u", some 5, 3, 3⟩)]) ∧
    api ⟨"GET", "/reviews", some "1"⟩
        (.ok [("1_w", ⟨.fin 1, "w", none, 0, 0⟩),
              ("1_u", ⟨.fin 1, "u", some 5, 3, 3⟩)]) =
      ⟨200, .reviewList 1 [⟨"1_w", .fin 1, some "w", none, 0, 0⟩,
        ⟨"1_u", .fin 1, some "u", some 5, 3, 3⟩] 2⟩ := by
  refine ⟨aggregateDocs_eq, rfl, rfl, ?_, rfl⟩
  exact saveReview_concrete "u" (by decide) (.fin 1) (by decide) (by decide) 5
    (by norm_num) (by norm_num) 3 _ _ [5] 5 1 (by decide) (by decide)
    (by norm_num [averageOf]) (by decide)

/-- C9 (confirmed): on the `/reviews` endpoint, a method other than GET
and OPTIONS gets 405; a GET whose `resourceId` does not coerce to a finite
number gets 400; a GET with a finite `resourceId` gets 200 with exactly
the matching documents and their count; a storage error gets 500. -/
theorem api_listRatings (req : HttpReq) (hpath : req.path = "/reviews")
    (db : Except Unit Store) :
    (¬(req.method = "GET") → ¬(req.method = "OPTIONS") →
      api req db = ⟨405, .errorMsg "Method Not Allowed"⟩) ∧
    (req.method = "GET" → isFiniteNum (jsToNumber req.resourceIdParam) = false →
      api req db = ⟨400, .errorMsg "resourceId must be a number"⟩) ∧
    (∀ (v : ℚ) (s : Store), req.method = "GET" →
      jsToNumber req.resourceIdParam = .fin v → db = .ok s →
      api req db = ⟨200, .reviewList v
        ((s.filter (fun p => matchesResource (.fin v) p.2)).map toReviewOut)
        (((s.filter (fun p => matchesResource (.fin v) p.2)).map toReviewOut).length)⟩) ∧
    (∀ v : ℚ, req.method = "GET" → jsToNumber req.resourceIdParam = .fin v →
      db = .error () → api req db = ⟨500, .errorMsg "Internal Server Error"⟩) := by
  obtain ⟨m, p, rp⟩ := req
  obtain rfl : p = "/reviews" := hpath
  refine ⟨?_, ?_, ?_, ?_⟩
  · intro hg ho
    unfold api
    dsimp only
    rw [if_neg (by simpa using ho), if_pos (by simpa using hg)]
  · intro hg hfin
    obtain rfl : m = "GET" := hg
    dsimp only at hfin
    unfold api
    dsimp only
    rw [if_neg (by decide), if_neg (by decide), if_neg (by decide)]
    cases hj : jsToNumber rp with
    | nan => rfl
    | inf b => rfl
    | fin v =>
        rw [hj] at hfin
        simp [isFiniteNum] at hfin
  · intro v s hg hj hdb
    obtain rfl : m = "GET" := hg
    obtain rfl : db = .ok s := hdb
    unfold api
    dsimp only
    rw [if_neg (by decide), if_neg (by decide), if_neg (by decide), hj]
  · intro v hg hj hdb
    obtain rfl : m = "GET" := hg
    obtain rfl : db = .error () := hdb
    unfold api
    dsimp only
    rw [if_neg (by decide), if_neg (by decide), if_neg (by decide), hj]

theorem api_listRatings_witness :
    api ⟨"GET", "/reviews", some "42"⟩ (.ok []) = ⟨200, .reviewList 42 [] 0⟩ :=
  (api_listRatings ⟨"GET", "/reviews", some "42"⟩ rfl (.ok [])).2.2.1 42 []
    rfl (by decide) rfl
